import Mathlib

/-!
Verification of the TRAI data-ingestion pipeline
(`src/trai_brain/data_ingestion.py`).

The Python source is shallowly embedded below.  Strings are modelled by
Lean `String` (lists of characters); Python string primitives that the
source uses (`lower`, `strip`, slicing, `in`, `replace`) are given
explicit executable definitions that follow CPython semantics for the
ASCII texts the pipeline handles.  The `re` module calls made by
`filter_secrets` are modelled by a small backtracking regex engine over
an AST; the nineteen patterns of `TRAIDataIngestion.secret_patterns`
are transcribed into that AST.  All definitions are executable so that
concrete runs of the pipeline can be settled by `decide`/`rfl`.
-/

/-! ### Python string primitives -/

/-- The whitespace characters stripped by Python `str.strip()` /
matched by `\s` (ASCII range, which is all the pipeline handles). -/
def pySpace (c : Char) : Bool :=
  c = ' ' || c = '\t' || c = '\n' || c = '\r' || c = '\x0b' || c = '\x0c'

/-- Python `str.lower()` (ASCII). -/
def pyLower (s : String) : String := ⟨s.data.map Char.toLower⟩

/-- Python `str.strip()`. -/
def pyStrip (s : String) : String :=
  ⟨((s.data.dropWhile pySpace).reverse.dropWhile pySpace).reverse⟩

/-- Python `s[:n]`. -/
def pyTake (s : String) (n : Nat) : String := ⟨s.data.take n⟩

/-- Python `s[-n:]` for `n > 0` (the whole string when `n ≥ len(s)`). -/
def pyTakeRight (s : String) (n : Nat) : String :=
  ⟨s.data.drop (s.data.length - n)⟩

/-- Python `l[-n:]` on lists. -/
def pyLastN {α : Type} (l : List α) (n : Nat) : List α :=
  l.drop (l.length - n)

/-- Python substring test `needle in hay`, on character lists. -/
def pyInAux (needle : List Char) : List Char → Bool
  | [] => needle.isEmpty
  | c :: cs => needle.isPrefixOf (c :: cs) || pyInAux needle cs

/-- Python substring test `needle in hay`. -/
def pyIn (needle hay : String) : Bool := pyInAux needle.data hay.data

/-- One left-to-right non-overlapping replacement pass, Python
`str.replace(old, new)`; the fuel is the length of the subject. -/
def pyReplaceAux (old new : List Char) : Nat → List Char → List Char
  | 0, s => s
  | _ + 1, [] => []
  | fuel + 1, c :: cs =>
    if old ≠ [] ∧ old.isPrefixOf (c :: cs) then
      new ++ pyReplaceAux old new fuel ((c :: cs).drop old.length)
    else
      c :: pyReplaceAux old new fuel cs

/-- Python `s.replace(old, new)` (all occurrences; `old` is never empty
in the pipeline). -/
def pyReplace (s old new : String) : String :=
  ⟨pyReplaceAux old.data new.data s.data.length s.data⟩

/-! ### A small backtracking regex engine

Enough of Python's `re` to run the nineteen `secret_patterns` under the
flags the source passes (`re.IGNORECASE | re.DOTALL`).  Matching
mirrors CPython's backtracking order: alternation tries the left branch
first, greedy repetition tries the longest extent first, lazy
repetition the shortest; `findall` scans for the leftmost match and
resumes after each match. -/

/-- Word characters for `\b` (ASCII `\w`). -/
def isWordChar (c : Char) : Bool := c.isAlpha || c.isDigit || c = '_'

/-- Regex AST.  Repetition operators are restricted to single-character
classes plus a lazy `.*?`, which covers every pattern in the source. -/
inductive RE : Type where
  | eps : RE
  | cls (p : Char → Bool) : RE
  | lit (s : List Char) : RE
  | seq (a b : RE) : RE
  | alt (a b : RE) : RE
  | opt (a : RE) : RE
  | repC (p : Char → Bool) (lo : Nat) (hi : Option Nat) : RE
  | lazyDotStar : RE
  | wordB : RE
  | grp (i : Nat) (a : RE) : RE

/-- Captured groups: group index paired with the captured characters. -/
abbrev Caps : Type := List (Nat × List Char)

/-- Case-insensitive literal match (the source compiles every pattern
with `re.IGNORECASE`); returns the new previous-character and rest. -/
def litMatch : List Char → Option Char → List Char → Option (Option Char × List Char)
  | [], pv, s => some (pv, s)
  | l :: ls, _, c :: cs =>
    if c.toLower = l.toLower then litMatch ls (some c) cs else none
  | _ :: _, _, [] => none

/-- Length of the maximal prefix run of characters satisfying `p`. -/
def runLen (p : Char → Bool) : List Char → Nat
  | [] => 0
  | c :: cs => if p c then runLen p cs + 1 else 0

/-- Drop `n` characters, tracking the new previous character. -/
def dropWithPrev : Option Char → List Char → Nat → Option Char × List Char
  | pv, s, 0 => (pv, s)
  | pv, [], _ + 1 => (pv, [])
  | _, c :: cs, n + 1 => dropWithPrev (some c) cs n

/-- Greedy repetition extents, longest first: all `k` with
`lo ≤ k ≤ min (run length) hi`, descending. -/
def repExtents (p : Char → Bool) (lo : Nat) (hi : Option Nat) (s : List Char) : List Nat :=
  let m := match hi with
    | none => runLen p s
    | some h => min (runLen p s) h
  if m < lo then []
  else (List.range (m - lo + 1)).map (fun t => m - t)

/-- `\b`: exactly one side of the current position is a word char. -/
def atWordBoundary (pv : Option Char) (s : List Char) : Bool :=
  (match pv with | some c => isWordChar c | none => false)
    != (match s.head? with | some c => isWordChar c | none => false)

/-- All ways `r` can match a prefix of `s` (previous character `pv`),
in CPython backtracking preference order.  Each result is the new
previous character, the remaining suffix, and the captures. -/
def mrun : RE → Option Char → List Char → List (Option Char × List Char × Caps)
  | .eps, pv, s => [(pv, s, [])]
  | .cls _, _, [] => []
  | .cls p, _, c :: cs => if p c then [(some c, cs, [])] else []
  | .lit l, pv, s =>
    match litMatch l pv s with
    | some (pv', s') => [(pv', s', [])]
    | none => []
  | .seq a b, pv, s =>
    (mrun a pv s).flatMap (fun r =>
      (mrun b r.1 r.2.1).map (fun r' => (r'.1, r'.2.1, r.2.2 ++ r'.2.2)))
  | .alt a b, pv, s => mrun a pv s ++ mrun b pv s
  | .opt a, pv, s => mrun a pv s ++ [(pv, s, [])]
  | .repC p lo hi, pv, s =>
    (repExtents p lo hi s).map (fun k =>
      let r := dropWithPrev pv s k
      (r.1, r.2, []))
  | .lazyDotStar, pv, s =>
    (List.range (s.length + 1)).map (fun k =>
      let r := dropWithPrev pv s k
      (r.1, r.2, []))
  | .wordB, pv, s => if atWordBoundary pv s then [(pv, s, [])] else []
  | .grp i a, pv, s =>
    (mrun a pv s).map (fun r =>
      (r.1, r.2.1, r.2.2 ++ [(i, s.take (s.length - r.2.1.length))]))

/-- Scan for successive non-overlapping leftmost matches, Python
`re.findall`; returns matched text and captures for each match. -/
def scanAux : Nat → RE → Option Char → List Char → List (List Char × Caps)
  | 0, _, _, _ => []
  | _ + 1, _, _, [] => []
  | fuel + 1, r, pv, c :: cs =>
    match (mrun r pv (c :: cs)).head? with
    | some (pv', rest, caps) =>
      let consumed := (c :: cs).take ((c :: cs).length - rest.length)
      if rest.length < (c :: cs).length then
        (consumed, caps) :: scanAux fuel r pv' rest
      else
        (consumed, caps) :: scanAux fuel r (some c) cs
    | none => scanAux fuel r (some c) cs

/-- String looked up for group `i` (empty when the group is unset,
as Python reports an empty string for an unmatched group). -/
def capStr (caps : Caps) (i : Nat) : String :=
  match caps.find? (fun q => q.1 = i) with
  | some q => ⟨q.2⟩
  | none => ""

/-! ### The nineteen `secret_patterns` of `TRAIDataIngestion.__init__`
(source lines 42-80), transcribed into the regex AST.  Character
classes are written as predicates; classes that are asymmetric under
case are closed under `re.IGNORECASE` (which the source passes for
every pattern, line 246) directly in the predicate. -/

/-- `[A-Za-z0-9_-]`. -/
def cAlnumUD (c : Char) : Bool := c.isAlpha || c.isDigit || c = '_' || c = '-'

/-- `[_-]`. -/
def cUD (c : Char) : Bool := c = '_' || c = '-'

/-- The quote class used by the assignment patterns. -/
def cQuote (c : Char) : Bool := c = '"' || c = '\''

/-- `[^"\x27]`. -/
def cNotQuote (c : Char) : Bool := !cQuote c

/-- `[=:]`. -/
def cEqColon (c : Char) : Bool := c = '=' || c = ':'

/-- `\d`. -/
def cDigit (c : Char) : Bool := c.isDigit

/-- `[A-Za-z0-9._%+-]` (email local part). -/
def cEmailLocal (c : Char) : Bool :=
  c.isAlpha || c.isDigit || c = '.' || c = '_' || c = '%' || c = '+' || c = '-'

/-- `[A-Za-z0-9.-]` (email domain). -/
def cEmailDomain (c : Char) : Bool := c.isAlpha || c.isDigit || c = '.' || c = '-'

/-- `[A-Z|a-z]` (the class in the email pattern literally contains `|`). -/
def cAlphaBar (c : Char) : Bool := c.isAlpha || c = '|'

/-- `[^\s\x27"]`. -/
def cNotWsQuote (c : Char) : Bool := !pySpace c && !cQuote c

/-- `[a-fA-F0-9]`. -/
def cHex (c : Char) : Bool :=
  c.isDigit || ('a' ≤ c && c ≤ 'f') || ('A' ≤ c && c ≤ 'F')

/-- `[a-zA-HJ-NP-Z0-9]` under `re.IGNORECASE`: since the lowercase side
is the full `a-z`, every letter case-folds into the class, so it
collapses to letter-or-digit. -/
def cBtcBody (c : Char) : Bool := c.isAlpha || c.isDigit

/-- Case-insensitive literal. -/
def L (s : String) : RE := RE.lit s.data

/-- Sequencing a list of regex fragments. -/
def reSeq (l : List RE) : RE := l.foldr RE.seq RE.eps

/-- Ordered alternation (CPython tries branches left to right). -/
def reAlts : List RE → RE
  | [] => RE.eps
  | [r] => r
  | r :: rs => RE.alt r (reAlts rs)

/-- `stem[_-]?suffix|stemsuffix`, the key-name shape shared by the
assignment patterns. -/
def keyName2 (stem suffix : String) : RE :=
  RE.alt (reSeq [L stem, RE.opt (RE.cls cUD), L suffix]) (L (stem ++ suffix))

/-- `(key)\s*[=:]\s*["\x27]?(value)["\x27]?` with both capture groups,
the common shape of the assignment patterns. -/
def keyAssign (keyRe valRe : RE) : RE :=
  reSeq [RE.grp 1 keyRe, RE.repC pySpace 0 none, RE.cls cEqColon,
         RE.repC pySpace 0 none, RE.opt (RE.cls cQuote),
         RE.grp 2 valRe, RE.opt (RE.cls cQuote)]

/-- One redaction rule: the regex source text (used as the audit rule
identifier, as in the Python `pattern` field), its AST, and its number
of capture groups (which determines the shape `re.findall` returns). -/
structure SecretPattern where
  src : String
  ast : RE
  ngroups : Nat

/-- `secret_patterns`, in source order. -/
def secret_patterns : List SecretPattern := [
  -- r'([A-Za-z0-9_-]{20,})'  — generic long alphanumeric (20+ chars)
  ⟨"([A-Za-z0-9_-]\x7b20,\x7d)", RE.grp 1 (RE.repC cAlnumUD 20 none), 1⟩,
  -- r'(?i)(api[_-]?key|apikey)\s*[=:]\s*["\']?([A-Za-z0-9_-]{10,})["\']?'
  ⟨"(?i)(api[_-]?key|apikey)\\s*[=:]\\s*[\"\\\x27]?([A-Za-z0-9_-]\x7b10,\x7d)[\"\\\x27]?",
    keyAssign (keyName2 "api" "key") (RE.repC cAlnumUD 10 none), 2⟩,
  -- r'(?i)(secret[_-]?key|secretkey)\s*[=:]\s*["\']?([A-Za-z0-9_-]{10,})["\']?'
  ⟨"(?i)(secret[_-]?key|secretkey)\\s*[=:]\\s*[\"\\\x27]?([A-Za-z0-9_-]\x7b10,\x7d)[\"\\\x27]?",
    keyAssign (keyName2 "secret" "key") (RE.repC cAlnumUD 10 none), 2⟩,
  -- r'(?i)(access[_-]?token|accesstoken)\s*[=:]\s*["\']?([A-Za-z0-9_-]{10,})["\']?'
  ⟨"(?i)(access[_-]?token|accesstoken)\\s*[=:]\\s*[\"\\\x27]?([A-Za-z0-9_-]\x7b10,\x7d)[\"\\\x27]?",
    keyAssign (keyName2 "access" "token") (RE.repC cAlnumUD 10 none), 2⟩,
  -- r'(?i)(auth[_-]?token|authtoken)\s*[=:]\s*["\']?([A-Za-z0-9_-]{10,})["\']?'
  ⟨"(?i)(auth[_-]?token|authtoken)\\s*[=:]\\s*[\"\\\x27]?([A-Za-z0-9_-]\x7b10,\x7d)[\"\\\x27]?",
    keyAssign (keyName2 "auth" "token") (RE.repC cAlnumUD 10 none), 2⟩,
  -- r'(?i)(bearer[_-]?token|bearertoken)\s*[=:]\s*["\']?([A-Za-z0-9_-]{10,})["\']?'
  ⟨"(?i)(bearer[_-]?token|bearertoken)\\s*[=:]\\s*[\"\\\x27]?([A-Za-z0-9_-]\x7b10,\x7d)[\"\\\x27]?",
    keyAssign (keyName2 "bearer" "token") (RE.repC cAlnumUD 10 none), 2⟩,
  -- r'(?i)(password|passwd|pwd)\s*[=:]\s*["\']?([^"\']{3,})["\']?'
  ⟨"(?i)(password|passwd|pwd)\\s*[=:]\\s*[\"\\\x27]?([^\"\\\x27]\x7b3,\x7d)[\"\\\x27]?",
    keyAssign (reAlts [L "password", L "passwd", L "pwd"]) (RE.repC cNotQuote 3 none), 2⟩,
  -- r'(?i)(db[_-]?password|dbpassword)\s*[=:]\s*["\']?([^"\']{3,})["\']?'
  ⟨"(?i)(db[_-]?password|dbpassword)\\s*[=:]\\s*[\"\\\x27]?([^\"\\\x27]\x7b3,\x7d)[\"\\\x27]?",
    keyAssign (keyName2 "db" "password") (RE.repC cNotQuote 3 none), 2⟩,
  -- r'eyJ[A-Za-z0-9_-]*\.[A-Za-z0-9_-]*\.?[A-Za-z0-9_-]*'  — JWT tokens
  ⟨"eyJ[A-Za-z0-9_-]*\\.[A-Za-z0-9_-]*\\.?[A-Za-z0-9_-]*",
    reSeq [L "eyJ", RE.repC cAlnumUD 0 none, L ".", RE.repC cAlnumUD 0 none,
           RE.opt (L "."), RE.repC cAlnumUD 0 none], 0⟩,
  -- r'-----BEGIN\s+(?:RSA|EC|DSA|PRIVATE|PUBLIC)\s+KEY-----.*?-----END\s+(?:...)\s+KEY-----'
  ⟨"-----BEGIN\\s+(?:RSA|EC|DSA|PRIVATE|PUBLIC)\\s+KEY-----.*?-----END\\s+(?:RSA|EC|DSA|PRIVATE|PUBLIC)\\s+KEY-----",
    reSeq [L "-----BEGIN", RE.repC pySpace 1 none,
           reAlts [L "RSA", L "EC", L "DSA", L "PRIVATE", L "PUBLIC"],
           RE.repC pySpace 1 none, L "KEY-----", RE.lazyDotStar,
           L "-----END", RE.repC pySpace 1 none,
           reAlts [L "RSA", L "EC", L "DSA", L "PRIVATE", L "PUBLIC"],
           RE.repC pySpace 1 none, L "KEY-----"], 0⟩,
  -- r'(?i)(private[_-]?key|privatekey)\s*[=:]\s*["\']?([^"\']{10,})["\']?'
  ⟨"(?i)(private[_-]?key|privatekey)\\s*[=:]\\s*[\"\\\x27]?([^\"\\\x27]\x7b10,\x7d)[\"\\\x27]?",
    keyAssign (keyName2 "private" "key") (RE.repC cNotQuote 10 none), 2⟩,
  -- r'(?i)(mongodb|postgres|mysql|redis)://[^\s\'"]+'
  ⟨"(?i)(mongodb|postgres|mysql|redis)://[^\\s\\\x27\"]+",
    reSeq [RE.grp 1 (reAlts [L "mongodb", L "postgres", L "mysql", L "redis"]),
           L "://", RE.repC cNotWsQuote 1 none], 1⟩,
  -- r'(?i)(database[_-]?url|databaseurl)\s*[=:]\s*["\']?([^"\']+)["\']?'
  ⟨"(?i)(database[_-]?url|databaseurl)\\s*[=:]\\s*[\"\\\x27]?([^\"\\\x27]+)[\"\\\x27]?",
    keyAssign (keyName2 "database" "url") (RE.repC cNotQuote 1 none), 2⟩,
  -- r'\b[A-Za-z0-9._%+-]+@[A-Za-z0-9.-]+\.[A-Z|a-z]{2,}\b'  — email addresses
  ⟨"\\b[A-Za-z0-9._%+-]+@[A-Za-z0-9.-]+\\.[A-Z|a-z]\x7b2,\x7d\\b",
    reSeq [RE.wordB, RE.repC cEmailLocal 1 none, L "@", RE.repC cEmailDomain 1 none,
           L ".", RE.repC cAlphaBar 2 none, RE.wordB], 0⟩,
  -- r'\b\d{1,3}\.\d{1,3}\.\d{1,3}\.\d{1,3}\b'  — IPv4 addresses
  ⟨"\\b\\d\x7b1,3\x7d\\.\\d\x7b1,3\x7d\\.\\d\x7b1,3\x7d\\.\\d\x7b1,3\x7d\\b",
    reSeq [RE.wordB, RE.repC cDigit 1 (some 3), L ".", RE.repC cDigit 1 (some 3),
           L ".", RE.repC cDigit 1 (some 3), L ".", RE.repC cDigit 1 (some 3),
           RE.wordB], 0⟩,
  -- r'\b(bc1|[13])[a-zA-HJ-NP-Z0-9]{25,}\b'  — Bitcoin addresses
  ⟨"\\b(bc1|[13])[a-zA-HJ-NP-Z0-9]\x7b25,\x7d\\b",
    reSeq [RE.wordB,
           RE.grp 1 (RE.alt (L "bc1") (RE.cls (fun c => c = '1' || c = '3'))),
           RE.repC cBtcBody 25 none, RE.wordB], 1⟩,
  -- r'\b0x[a-fA-F0-9]{40}\b'  — Ethereum addresses
  ⟨"\\b0x[a-fA-F0-9]\x7b40\x7d\\b",
    reSeq [RE.wordB, L "0x", RE.repC cHex 40 (some 40), RE.wordB], 0⟩,
  -- r'\b[a-fA-F0-9]{32,}\b'  — 32+ hex chars
  ⟨"\\b[a-fA-F0-9]\x7b32,\x7d\\b",
    reSeq [RE.wordB, RE.repC cHex 32 none, RE.wordB], 0⟩,
  -- r'https?://[^\s\'"]+\?[^\s\'"]*(?:key|token|secret|password|auth)[^\s\'"]*'
  ⟨"https?://[^\\s\\\x27\"]+\\?[^\\s\\\x27\"]*(?:key|token|secret|password|auth)[^\\s\\\x27\"]*",
    reSeq [L "http", RE.opt (L "s"), L "://", RE.repC cNotWsQuote 1 none,
           L "?", RE.repC cNotWsQuote 0 none,
           reAlts [L "key", L "token", L "secret", L "password", L "auth"],
           RE.repC cNotWsQuote 0 none], 0⟩]

/-- `re.findall(pattern, content, re.IGNORECASE | re.DOTALL)` for one
rule: the match shape follows CPython (`0` groups → the whole match,
`1` group → that group, `2` groups → the pair of groups). -/
def findallPat (pat : SecretPattern) (content : String) : List (List String) :=
  (scanAux (content.data.length + 1) pat.ast none content.data).map (fun r =>
    match pat.ngroups with
    | 0 => [String.mk r.1]
    | 1 => [capStr r.2 1]
    | _ => [capStr r.2 1, capStr r.2 2])

/-! ### `filter_secrets` (source lines 235-275) and run statistics -/

/-- One audit entry produced by `filter_secrets` (rule identifier,
truncated preview, original length). -/
structure SecretAudit where
  pattern : String
  value : String
  length : Nat
deriving DecidableEq, Repr

/-- One entry of `stats['filtered_patterns']`. -/
structure FilteredPatternEntry where
  message_index : Nat
  pattern : String
  preview : String
deriving DecidableEq, Repr

/-- `self.stats` (source lines 33-39). -/
structure Stats where
  total_messages : Nat
  categorized_messages : Nat
  uncategorized_messages : Nat
  secrets_filtered : Nat
  filtered_patterns : List FilteredPatternEntry
deriving DecidableEq, Repr

/-- Zero-initialized statistics of a fresh pipeline instance. -/
def initStats : Stats := ⟨0, 0, 0, 0, []⟩

/-- Python `''.join(str(m) for m in match if m)`: a tuple match is
collapsed by concatenating its non-empty groups; a plain string match
collapses to itself (it arrives as a one-element list). -/
def collapseMatch (groups : List String) : String :=
  String.join (groups.filter (fun g => g ≠ ""))

/-- Body of the inner `for match in matches` loop of `filter_secrets`
(source lines 248-269). -/
def fsApplyMatch (pat : SecretPattern) (acc : String × List SecretAudit × Stats)
    (m : List String) : String × List SecretAudit × Stats :=
  let secret_value := collapseMatch m
  if (pyStrip secret_value).length < 8 then acc
  else
    (pyReplace acc.1 secret_value "[REDACTED_SECRET]",
     acc.2.1 ++ [⟨pat.src,
       (if secret_value.length > 20 then pyTake secret_value 20 ++ "..." else secret_value),
       secret_value.length⟩],
     { acc.2.2 with secrets_filtered := acc.2.2.secrets_filtered + 1 })

/-- Body of the outer `for pattern in self.secret_patterns` loop:
`re.findall` always runs against the original `content`, while
replacements accumulate in the running filtered text.  (The
`except re.error` arm of the source is dead for this fixed rule list:
all nineteen patterns compile.) -/
def fsApplyPattern (content : String) (acc : String × List SecretAudit × Stats)
    (pat : SecretPattern) : String × List SecretAudit × Stats :=
  (findallPat pat content).foldl (fsApplyMatch pat) acc

/-- `filter_secrets` (source lines 235-275), with the `self.stats`
mutation made explicit: returns the filtered content, the list of
filtered-secret audit entries, and the updated statistics. -/
def filter_secrets (content : String) (stats : Stats) :
    String × List SecretAudit × Stats :=
  secret_patterns.foldl (fsApplyPattern content) (content, [], stats)

/-! ### `categorize_message` (source lines 277-342) -/

/-- The fifteen topic labels with their keyword lists, in source order
(one entry per `if any(word in msg_lower ...)` block). -/
def categoryKeywords : List (String × List String) := [
  ("architecture", ["architecture", "modular", "design", "structure", "layer", "component"]),
  ("development", ["implement", "build", "create", "develop", "coding", "programming"]),
  ("problem_solving", ["fix", "bug", "error", "issue", "problem", "debug", "troubleshoot"]),
  ("business_strategy", ["business", "revenue", "monetization", "market", "customer", "sales"]),
  ("technical_decisions", ["decision", "choose", "option", "alternative", "trade-off"]),
  ("code_implementation", ["function", "class", "method", "algorithm", "code"]),
  ("debugging", ["debug", "log", "trace", "error", "exception"]),
  ("optimization", ["optimize", "performance", "speed", "efficiency", "improve"]),
  ("ai_ml_discussion", ["ai", "ml", "model", "training", "neural", "gpt", "claude"]),
  ("trading_strategy", ["trade", "trading", "strategy", "pattern", "indicator"]),
  ("user_motivation", ["family", "daughter", "dad", "motivation", "dream", "future"]),
  ("project_vision", ["vision", "goal", "mission", "dream", "future"]),
  ("challenges_overcome", ["challenge", "overcome", "difficult", "hard", "struggle"]),
  ("lessons_learned", ["lesson", "learned", "mistake", "improvement", "better"]),
  ("future_planning", ["future", "plan", "roadmap", "next", "upcoming"])]

/-- `categorize_message` (source lines 277-342): the fifteen `if` blocks
append their label when any keyword occurs in the lowercased message;
the `context` parameter is accepted but never read, exactly as in the
source.  Returns `categories if categories else ['uncategorized']`. -/
def categorize_message (message : String) (context : String) : List String :=
  let msg_lower := pyLower message
  let categories := categoryKeywords.foldl
    (fun acc p => if p.2.any (fun word => pyIn word msg_lower) then acc ++ [p.1] else acc) []
  if categories.isEmpty then ["uncategorized"] else categories

/-! ### `_analyze_conversation_flow` (source lines 344-365) -/

/-- An element of the `all_messages` argument: the markdown paths pass
raw strings, the JSON path passes message dicts (only the `content`
field of which the flow classifier reads). -/
inductive FlowMsg : Type where
  | ofStr (s : String) : FlowMsg
  | ofDict (content : String) : FlowMsg
deriving DecidableEq, Repr

/-- `prev_content` extraction of `_analyze_conversation_flow` (source
lines 356-360): dict messages yield `get('content','').lower()`, other
messages are stringified and lowercased. -/
def flowPrevContent : FlowMsg → String
  | .ofDict c => pyLower c
  | .ofStr s => pyLower s

/-- `_analyze_conversation_flow` (source lines 344-365).  The keyword
rules are checked in fixed order with first match winning; the
`response` rule additionally inspects the preceding message. -/
def analyze_conversation_flow (content : String) (index : Nat)
    (all_messages : List FlowMsg) : String :=
  if ["instead", "changed", "modified", "updated", "fixed"].any
      (fun word => pyIn word (pyLower content)) then "iteration"
  else if ["problem", "issue", "error", "bug"].any
      (fun word => pyIn word (pyLower content)) then "problem_solving"
  else if ["plan", "next", "future", "roadmap"].any
      (fun word => pyIn word (pyLower content)) then "planning"
  else if index > 0 ∧ all_messages.length > index - 1 then
    -- the guard makes the `prev_content` lookup in-bounds; the default
    -- of the optional indexing is never used
    if ["how", "what", "why", "can you"].any
        (fun word =>
          pyIn word (flowPrevContent ((all_messages[index - 1]?).getD (.ofStr "")))) then
      "response"
    else "standalone"
  else "standalone"

/-! ### `_extract_claude_messages` (source lines 173-233) -/

/-- The `content` payload of a node's message: a list of parts (the
extractor reads only the first part; the pipeline's inputs carry
string parts, so parts are modelled as strings). -/
structure MsgContent where
  parts : List String
deriving DecidableEq, Repr

/-- A node's `message` object. -/
structure MsgObj where
  content : Option MsgContent
  author_role : Option String
  id : Option String
deriving DecidableEq, Repr

/-- One value of the conversation `mapping`: nullable parent id,
ordered child ids, optional message payload. -/
structure NodeData where
  parent : Option String
  children : List String
  message : Option MsgObj
deriving DecidableEq, Repr

/-- One conversation export object (title, creation time, node map).
The node map is an association list so that Python dict insertion
order is preserved. -/
structure Conv where
  title : Option String
  create_time : Option String
  mapping : List (String × NodeData)
deriving DecidableEq, Repr

/-- One flattened message emitted by the extractor. -/
structure ExtractedMsg where
  content : String
  author : String
  conversation_title : String
  timestamp : Option String
  message_id : Option String
deriving DecidableEq, Repr

/-- Lines 202-217: emit the current node's message if it has a content
payload with a non-empty parts list. -/
def emitNode (conv_title : String) (create_time : Option String)
    (nd : NodeData) : List ExtractedMsg :=
  match nd.message with
  | none => []
  | some msg_obj =>
    match msg_obj.content with
    | none => []
    | some content =>
      match content.parts with
      | [] => []
      | p :: _ =>
        [{ content := p,
           author := msg_obj.author_role.getD "unknown",
           conversation_title := conv_title,
           timestamp := create_time,
           message_id := msg_obj.id }]

/-- The `while message_list` walk (source lines 199-231): emit the
current node, then follow the first unvisited child if it exists in
the mapping, else stop.  The fuel is always called with more steps
than there are nodes, so it never runs out on the loop's own exit
conditions. -/
def walkThread (conv_title : String) (create_time : Option String)
    (mapping : List (String × NodeData)) :
    Nat → List String → String × NodeData → List ExtractedMsg → List ExtractedMsg
  | 0, _, _, acc => acc
  | fuel + 1, processed_ids, current, acc =>
    let acc := acc ++ emitNode conv_title create_time current.2
    match current.2.children.find? (fun child_id => !processed_ids.contains child_id) with
    | some next_child =>
      match mapping.find? (fun e => e.1 = next_child) with
      | some entry =>
        walkThread conv_title create_time mapping fuel
          (processed_ids ++ [next_child]) entry acc
      | none => acc
    | none => acc

/-- `_extract_claude_messages` (source lines 173-233): for each
conversation, find the first node whose parent is null (lines
192-196) and walk the thread from it; a conversation with no such
root contributes nothing. -/
def extract_claude_messages (conversations : List Conv) : List ExtractedMsg :=
  conversations.foldl
    (fun all_messages conv =>
      let conv_title := conv.title.getD "Untitled Conversation"
      match conv.mapping.find? (fun e => e.2.parent = none) with
      | none => all_messages
      | some root =>
        all_messages ++
          walkThread conv_title conv.create_time conv.mapping
            (conv.mapping.length + 1) [root.1] root [])
    []

/-! ### Size-tiered strategy dispatch of `process_md_file`
(source lines 631-651) -/

/-- The three freeform-text processing strategies. -/
inductive MdStrategy : Type where
  | streaming_extremely_large : MdStrategy
  | streaming_large : MdStrategy
  | whole_buffer : MdStrategy
deriving DecidableEq, Repr

/-- The size dispatch of `process_md_file` (source lines 639-647):
`file_size > 100000000` streams, else `file_size > 10000000` goes
through the chunked strategy, else the whole-buffer path runs. -/
def select_md_strategy (file_size : Nat) : MdStrategy :=
  if file_size > 100000000 then .streaming_extremely_large
  else if file_size > 10000000 then .streaming_large
  else .whole_buffer

/-! ### Per-utterance record assembly

All four processing paths are embedded from the point where the
segmenter / JSON decoder has produced the candidate message list.
Run-constant provenance fields of the Python record dicts
(`source_file`, `timestamp`, `file_position`, `chunk_number`,
`json_metadata`) are not modelled: they copy ambient run data and no
claim mentions them.  The `hashlib.md5(...).hexdigest()` call is an
external library function and is passed in as a parameter `md5hex`;
what matters to the claims is which text it is applied to and that the
identifier is its 8-character truncation. -/

/-- One categorized utterance record (`categorized_message` dicts).
`original_length` and `filtered_secrets` are `none` on paths whose
record dicts do not carry those keys. -/
structure Record where
  id : String
  content : String
  original_length : Option Nat
  filtered_secrets : Option Nat
  categories : List String
  message_index : Nat
  context_before : String
  length : Nat
  conversation_flow : String
deriving DecidableEq, Repr

/-- The per-label buckets `self.categories` (source lines 15-31), as an
insertion-ordered association list over the fifteen fixed labels. -/
abbrev Buckets : Type := List (String × List Record)

/-- `self.categories` at pipeline start: the fifteen labels, each with
an empty bucket. -/
def initCategories : Buckets := categoryKeywords.map (fun p => (p.1, []))

/-- `for category in categories: if category in self.categories:
self.categories[category].append(...)` (e.g. source lines 720-723). -/
def add_to_categories (buckets : Buckets) (cats : List String) (r : Record) : Buckets :=
  cats.foldl
    (fun b category =>
      b.map (fun p => if p.1 = category then (p.1, p.2 ++ [r]) else p))
    buckets

/-- Mutable pipeline state shared by the paths: statistics, category
buckets, and the processed-records list used for context windows. -/
structure IngestState where
  stats : Stats
  categories : Buckets
  processed : List Record
deriving DecidableEq, Repr

/-- A fresh `TRAIDataIngestion` instance's state. -/
def initState : IngestState := ⟨initStats, initCategories, []⟩

/-- `categorized/uncategorized` counter update shared verbatim by all
four paths (e.g. source lines 699-702). -/
def bumpCategorized (st : Stats) (categories : List String) : Stats :=
  if categories ≠ ["uncategorized"] then
    { st with categorized_messages := st.categorized_messages + 1 }
  else
    { st with uncategorized_messages := st.uncategorized_messages + 1 }

/-- Context builder of `process_md_file` (source lines 678-694): walk
up to 3 previous messages backwards, keep each one's trailing 500
characters while the 2000-character budget allows, oldest first. -/
def mdContext (processed : List Record) (i : Nat) : String :=
  if i > 0 ∧ processed ≠ [] then
    let r := (List.range (min 3 i)).foldl
      (fun (acc : List String × Nat) j =>
        let prev_idx := i - 1 - j
        if prev_idx < processed.length then
          match processed[prev_idx]? with
          | some prev =>
            if acc.2 + prev.content.length ≤ 2000 then
              (pyTakeRight prev.content 500 :: acc.1, acc.2 + prev.content.length)
            else acc
          | none => acc
        else acc)
      ([], 0)
    String.intercalate " ... " r.1
  else ""

/-- Loop body of the whole-buffer path `process_md_file` (source lines
659-725), for message `message` at enumeration index `i`. -/
def process_md_step (md5hex : String → String) (messages : List String)
    (s : IngestState) (i : Nat) (message : String) : IngestState :=
  if (pyStrip message).length < 50 then s
  else
    let fs := filter_secrets message s.stats
    let filtered_message := fs.1
    let secrets_found := fs.2.1
    let st := fs.2.2
    let new_entries := secrets_found.map
      (fun sec => (⟨i, sec.pattern, sec.value⟩ : FilteredPatternEntry))
    let st := { st with filtered_patterns := st.filtered_patterns ++ new_entries }
    let st := { st with total_messages := st.total_messages + 1 }
    let context_before := mdContext s.processed i
    let categories := categorize_message filtered_message context_before
    let st := bumpCategorized st categories
    let record : Record := {
      id := pyTake (md5hex filtered_message) 8,
      content := pyStrip filtered_message,
      original_length := some message.length,
      filtered_secrets := some secrets_found.length,
      categories := categories,
      message_index := i,
      context_before := context_before,
      length := filtered_message.length,
      conversation_flow :=
        analyze_conversation_flow filtered_message i (messages.map .ofStr) }
    { stats := st,
      categories := add_to_categories s.categories categories record,
      processed := s.processed ++ [record] }

/-- The whole-buffer path of `process_md_file` from the segmented
message list onwards. -/
def process_md_messages (md5hex : String → String) (messages : List String)
    (s : IngestState) : IngestState :=
  (messages.enum).foldl (fun st p => process_md_step md5hex messages st p.1 p.2) s

/-- Loop body of the chunked path `_process_large_file_streaming`
(source lines 480-530), for message `message` at index `j` of its
chunk.  Note lines 512-513 and 520: the record's identifier, content
and length are built from the pre-redaction `message`, and the flow
classifier also receives the pre-redaction text, although
`filtered_message` was computed. -/
def process_chunk_step (md5hex : String → String) (chunk_messages : List String)
    (s : IngestState) (j : Nat) (message : String) : IngestState :=
  if (pyStrip message).length < 50 then s
  else
    let fs := filter_secrets message s.stats
    let filtered_message := fs.1
    let secrets_found := fs.2.1
    let st := fs.2.2
    let new_entries := secrets_found.map
      (fun sec => (⟨s.processed.length, sec.pattern, sec.value⟩ : FilteredPatternEntry))
    let st := { st with filtered_patterns := st.filtered_patterns ++ new_entries }
    let st := { st with total_messages := st.total_messages + 1 }
    let context_before :=
      if s.processed ≠ [] then
        String.intercalate " ... "
          ((pyLastN s.processed 3).map (fun m => pyTakeRight m.content 300))
      else ""
    let categories := categorize_message filtered_message context_before
    let st := bumpCategorized st categories
    let record : Record := {
      id := pyTake (md5hex message) 8,
      content := pyStrip message,
      original_length := none,
      filtered_secrets := none,
      categories := categories,
      message_index := s.processed.length,
      context_before := context_before,
      length := message.length,
      conversation_flow :=
        analyze_conversation_flow message j (chunk_messages.map .ofStr) }
    { stats := st,
      categories := add_to_categories s.categories categories record,
      processed := s.processed ++ [record] }

/-- The chunked path `_process_large_file_streaming` from one chunk's
segmented message list onwards. -/
def process_chunk_messages (md5hex : String → String) (chunk_messages : List String)
    (s : IngestState) : IngestState :=
  (chunk_messages.enum).foldl
    (fun st p => process_chunk_step md5hex chunk_messages st p.1 p.2) s

/-- State specific to the streaming path: the running message counter
and the bounded context buffer of the last 5 accepted records. -/
structure StreamState where
  state : IngestState
  processed_count : Nat
  context_buffer : List Record
deriving DecidableEq, Repr

/-- Loop body of the streaming path `_process_extremely_large_file`
(source lines 388-440). -/
def process_streaming_step (md5hex : String → String)
    (s : StreamState) (message : String) : StreamState :=
  if (pyStrip message).length < 50 then s
  else
    let fs := filter_secrets message s.state.stats
    let filtered_message := fs.1
    let secrets_found := fs.2.1
    let st := fs.2.2
    let new_entries := secrets_found.map
      (fun sec => (⟨s.processed_count, sec.pattern, sec.value⟩ : FilteredPatternEntry))
    let st := { st with filtered_patterns := st.filtered_patterns ++ new_entries }
    let processed_count := s.processed_count + 1
    let st := { st with total_messages := st.total_messages + 1 }
    let context_before := String.intercalate " ... "
      ((pyLastN s.context_buffer 3).map (fun m => pyTakeRight m.content 200))
    let categories := categorize_message filtered_message context_before
    let st := bumpCategorized st categories
    let record : Record := {
      id := pyTake (md5hex filtered_message) 8,
      content := pyStrip filtered_message,
      original_length := some message.length,
      filtered_secrets := some secrets_found.length,
      categories := categories,
      message_index := processed_count,
      context_before := context_before,
      length := filtered_message.length,
      conversation_flow := "streaming_processed" }
    let context_buffer := s.context_buffer ++ [record]
    let context_buffer :=
      if context_buffer.length > 5 then context_buffer.drop 1 else context_buffer
    { state := { stats := st,
                 categories := add_to_categories s.state.categories categories record,
                 processed := s.state.processed },
      processed_count := processed_count,
      context_buffer := context_buffer }

/-- The streaming path's per-buffer message loop. -/
def process_streaming_messages (md5hex : String → String) (messages : List String)
    (s : StreamState) : StreamState :=
  messages.foldl (process_streaming_step md5hex) s

/-- One element of the JSON path's `messages` list: either a raw
string or a message object; the object keeps its conventional text
fields and its Python stringification (used when every text field is
falsy). -/
inductive JsonItem : Type where
  | str (s : String) : JsonItem
  | obj (content message text body : Option String) (asString : String) : JsonItem
deriving DecidableEq, Repr

/-- Content extraction of `process_json_file` (source lines 111-121):
the first truthy of `content`/`message`/`text`/`body`, else the
stringified element (Python `or` skips both missing and empty
fields). -/
def json_content : JsonItem → String
  | .str s => s
  | .obj c m t b asString =>
    match [c, m, t, b].foldl
      (fun acc f => match acc with
        | some v => some v
        | none => match f with
          | some v => if v ≠ "" then some v else none
          | none => none) none with
    | some v => v
    | none => asString

/-- The flow classifier's view of a JSON message (source lines
356-360 read `get('content','')` on dict messages). -/
def jsonFlowMsg : JsonItem → FlowMsg
  | .str s => .ofStr s
  | .obj c _ _ _ _ => .ofDict (c.getD "")

/-- Loop body of `process_json_file` (source lines 109-160): no
redaction runs on this path; the record is built from the extracted
`content` directly. -/
def process_json_step (md5hex : String → String) (messages : List JsonItem)
    (s : IngestState) (i : Nat) (message_data : JsonItem) : IngestState :=
  let content := json_content message_data
  if (pyStrip content).length < 50 then s
  else
    let st := { s.stats with total_messages := s.stats.total_messages + 1 }
    let context_before :=
      if i > 0 ∧ s.processed ≠ [] then
        String.intercalate " ... "
          ((pyLastN s.processed (min 3 s.processed.length)).map
            (fun m => pyTakeRight m.content 300))
      else ""
    let categories := categorize_message content context_before
    let st := bumpCategorized st categories
    let record : Record := {
      id := pyTake (md5hex content) 8,
      content := pyStrip content,
      original_length := none,
      filtered_secrets := none,
      categories := categories,
      message_index := i,
      context_before := context_before,
      length := content.length,
      conversation_flow :=
        analyze_conversation_flow content i (messages.map jsonFlowMsg) }
    { stats := st,
      categories := add_to_categories s.categories categories record,
      processed := s.processed ++ [record] }

/-- The JSON path's message loop. -/
def process_json_messages (md5hex : String → String) (messages : List JsonItem)
    (s : IngestState) : IngestState :=
  (messages.enum).foldl (fun st p => process_json_step md5hex messages st p.1 p.2) s

/-! ### Concrete inputs used by the theorems below -/

/-- A stand-in for the external `hashlib.md5(...).hexdigest()` (a fixed
32-hex-digit output); the properties stated about identifiers are
either parametric in the digest function or independent of it. -/
def md5hex_stub : String → String := fun _ => "d41d8cd98f00b204e9800998ecf8427e"

/-- A candidate message that is one 50-character alphanumeric run: it
passes the 50-character floor and is redacted to the bare placeholder
by the generic long-token rule. -/
def chunkSecretMsg : String := String.mk (List.replicate 50 'a')

/-- A 50-character candidate (46-character token plus ` fix`): it
passes the 50-character floor, redacts to `[REDACTED_SECRET] fix`
(21 characters), and the surviving `fix` keyword places the record in
the `problem_solving` bucket. -/
def lengthFloorMsg : String := String.mk (List.replicate 46 'a') ++ " fix"

/-- The three-node conversation of the tree-linearization property:
root `A` with children `[B, C]`, both leaves, every node carrying a
one-part message payload. -/
def abcConv : Conv :=
  { title := some "T", create_time := some "t0",
    mapping := [
      ("A", { parent := none, children := ["B", "C"],
              message := some { content := some { parts := ["msgA"] },
                                author_role := some "human", id := some "A" } }),
      ("B", { parent := some "A", children := [],
              message := some { content := some { parts := ["msgB"] },
                                author_role := some "assistant", id := some "B" } }),
      ("C", { parent := some "A", children := [],
              message := some { content := some { parts := ["msgC"] },
                                author_role := some "human", id := some "C" } })] }

/-- A conversation whose only node has a non-null parent, so no root
exists. -/
def noRootConv : Conv :=
  { title := none, create_time := none,
    mapping := [("X", { parent := some "X", children := [], message := none })] }

/-! ### Shared helper lemmas -/

/-- A fold preserves any property preserved by its step function. -/
theorem foldlPreserves {α β : Type} (f : α → β → α) (P : α → Prop)
    (h : ∀ a b, P a → P (f a b)) : ∀ (l : List β) (a : α), P a → P (l.foldl f a) := by
  intro l
  induction l with
  | nil => intro a ha; exact ha
  | cons x t ih => intro a ha; exact ih (f a x) (h a x ha)

/-- The append-if-condition fold of `categorize_message` computes the
names of the entries passing the condition, in order. -/
theorem foldlAddIf {α β : Type} (cond : α → Bool) (name : α → β) :
    ∀ (l : List α) (acc : List β),
      l.foldl (fun acc p => if cond p then acc ++ [name p] else acc) acc
        = acc ++ (l.filter cond).map name := by
  intro l
  induction l with
  | nil => intro acc; simp
  | cons x t ih =>
    intro acc
    by_cases h : cond x
    · simp [List.filter_cons, h, ih]
    · simp [List.filter_cons, h, ih]

/-- Dropping a prefix never lengthens a list. -/
theorem dropWhileLenLe {α : Type} (p : α → Bool) :
    ∀ l : List α, (l.dropWhile p).length ≤ l.length := by
  intro l
  induction l with
  | nil => simp
  | cons x t ih =>
    rw [List.dropWhile_cons]
    by_cases h : p x
    · simp only [h, if_true]
      exact Nat.le_succ_of_le ih
    · simp [h]

/-- Stripping never lengthens a string. -/
theorem pyStrip_length_le (s : String) : (pyStrip s).length ≤ s.length := by
  unfold pyStrip
  simp only [String.length, List.length_reverse]
  calc ((s.data.dropWhile pySpace).reverse.dropWhile pySpace).length
      ≤ (s.data.dropWhile pySpace).reverse.length := dropWhileLenLe _ _
    _ = (s.data.dropWhile pySpace).length := List.length_reverse _
    _ ≤ s.data.length := dropWhileLenLe _ _

/-! ### Claim theorems -/

/-- C7: strategy selection in `process_md_file` is a strict-greater-than
comparison on the byte size: at most 10,000,000 bytes selects the
whole-buffer path, 10,000,001 to 100,000,000 bytes selects the chunked
path, and the streaming path is selected exactly for sizes strictly
above 100,000,000 bytes. -/
theorem strategy_boundary (n : Nat) :
    (n ≤ 10000000 → select_md_strategy n = .whole_buffer) ∧
    (10000000 < n → n ≤ 100000000 → select_md_strategy n = .streaming_large) ∧
    (select_md_strategy n = .streaming_extremely_large ↔ 100000000 < n) := by
  unfold select_md_strategy
  refine ⟨fun h => ?_, fun h1 h2 => ?_, ?_⟩
  · rw [if_neg (by omega), if_neg (by omega)]
  · rw [if_neg (by omega), if_pos (by omega)]
  · constructor
    · intro h
      by_contra hn
      rw [if_neg (by omega)] at h
      split at h <;> simp_all
    · intro h
      rw [if_pos (by omega)]

/-- Witness for `strategy_boundary`: both boundary sizes stay on the
non-streaming / non-extreme path, and both boundary-plus-one sizes
move up one tier. -/
theorem strategy_boundary_witness :
    select_md_strategy 10000000 = .whole_buffer ∧
    select_md_strategy 10000001 = .streaming_large ∧
    select_md_strategy 100000000 = .streaming_large ∧
    select_md_strategy 100000001 = .streaming_extremely_large :=
  ⟨(strategy_boundary 10000000).1 (by decide),
   (strategy_boundary 10000001).2.1 (by decide) (by decide),
   (strategy_boundary 100000000).2.1 (by decide) (by decide),
   (strategy_boundary 100000001).2.2.mpr (by decide)⟩

/-- C8: `categorize_message` never reads its `context` argument, so its
output is the same for any two context strings. -/
theorem categorize_context_independent (message c1 c2 : String) :
    categorize_message message c1 = categorize_message message c2 := rfl

/-- C2 counterexample: redaction is not idempotent.  For the input
`eyJa.b1.2.33.44.55.66`, the first pass redacts the JWT-shaped prefix
(and its IPv4 match replacement misses), leaving
`[REDACTED_SECRET].33.44.55.66`; re-redacting that cleaned output
matches `33.44.55.66` as a fresh IPv4 boundary match and changes the
text again, so `redact(redact(x).cleaned).cleaned ≠ redact(x).cleaned`,
and the second pass also appends a new audit entry. -/
theorem redaction_not_idempotent :
    (filter_secrets "eyJa.b1.2.33.44.55.66" initStats).1
      = "[REDACTED_SECRET].33.44.55.66" ∧
    (filter_secrets ((filter_secrets "eyJa.b1.2.33.44.55.66" initStats).1) initStats).1
      = "[REDACTED_SECRET].[REDACTED_SECRET]" ∧
    (filter_secrets ((filter_secrets "eyJa.b1.2.33.44.55.66" initStats).1) initStats).1
      ≠ (filter_secrets "eyJa.b1.2.33.44.55.66" initStats).1 ∧
    (filter_secrets ((filter_secrets "eyJa.b1.2.33.44.55.66" initStats).1) initStats).2.1
      ≠ [] := by
  refine ⟨by decide, by decide, by decide, by decide⟩

/-- C2 (amended): re-redacting a cleaned output is not a no-op in
general, but the placeholder token itself never matches any rule:
redacting the placeholder string returns it unchanged, with no audit
entries and the statistics untouched. -/
theorem placeholder_never_matches (st : Stats) :
    filter_secrets "[REDACTED_SECRET]" st = ("[REDACTED_SECRET]", [], st) := rfl

/-- C3: a candidate whose collapsed value is shorter than 8 characters
is never redacted and produces no audit entry (`key=ab` is returned
intact with no audit), and for `api_key=abcdefghij1234` exactly one
audit entry is appended — but the text is NOT replaced with the
placeholder: the collapsed group-join `api_keyabcdefghij1234` is not a
substring of the input (the `=` is dropped by the join), so the
`str.replace` call is a no-op and the secret survives in the output. -/
theorem redaction_threshold_behavior :
    filter_secrets "key=ab" initStats = ("key=ab", [], initStats) ∧
    (filter_secrets "api_key=abcdefghij1234" initStats).1 = "api_key=abcdefghij1234" ∧
    (filter_secrets "api_key=abcdefghij1234" initStats).2.1 =
      [⟨"(?i)(api[_-]?key|apikey)\\s*[=:]\\s*[\"\\\x27]?([A-Za-z0-9_-]\x7b10,\x7d)[\"\\\x27]?",
        "api_keyabcdefghij123...", 21⟩] ∧
    pyIn "abcdefghij1234" (filter_secrets "api_key=abcdefghij1234" initStats).1 = true := by
  refine ⟨by decide, by decide, by decide, by decide⟩

/-- C1: in the chunked (10-100MB) path, the persisted record's content
is the pre-redaction text, and the identifier digest is computed over
the pre-redaction text, even though the redacted text differs: for a
50-character secret-shaped candidate, redaction would yield the bare
placeholder, yet the stored content is the raw candidate and the id is
the truncated digest of the raw candidate. -/
theorem chunked_path_persists_unredacted (md5hex : String → String) :
    (process_chunk_messages md5hex [chunkSecretMsg] initState).processed.map
        (fun r => r.content) = [chunkSecretMsg] ∧
    (process_chunk_messages md5hex [chunkSecretMsg] initState).processed.map
        (fun r => r.id) = [pyTake (md5hex chunkSecretMsg) 8] ∧
    (filter_secrets chunkSecretMsg initStats).1 = "[REDACTED_SECRET]" ∧
    chunkSecretMsg ≠ "[REDACTED_SECRET]" := by
  refine ⟨rfl, rfl, by decide, by decide⟩

/-- C6: the extractor's walk takes the first unvisited child only: on
the map `{A: {parent: null, children: [B, C]}, B: {parent: A}, C:
{parent: A}}` it emits exactly `[A, B]` and never visits `C`; and any
conversation whose node map contains no null-parent node (in
particular an empty map) contributes zero utterances. -/
theorem tree_linearization :
    (extract_claude_messages [abcConv]).map (fun m => m.content) = ["msgA", "msgB"] ∧
    ∀ conv : Conv, (∀ e ∈ conv.mapping, e.2.parent ≠ none) →
      extract_claude_messages [conv] = [] := by
  constructor
  · decide
  · intro conv h
    have hf : conv.mapping.find? (fun e => e.2.parent = none) = none := by
      rw [List.find?_eq_none]
      intro e he
      simpa using h e he
    simp [extract_claude_messages, hf]

/-- Witness for `tree_linearization`: a conversation whose single node
has a non-null parent yields no utterances. -/
theorem tree_linearization_witness :
    extract_claude_messages [noRootConv] = [] :=
  tree_linearization.2 noRootConv (by decide)

/-- C4: `categorize_message` always returns a non-empty label list, and
the result is exactly the singleton `["uncategorized"]` if and only if
no keyword of any of the 15 topic lists occurs as a substring of the
lowercased message. -/
theorem categorize_totality (message context : String) :
    categorize_message message context ≠ [] ∧
    (categorize_message message context = ["uncategorized"] ↔
      ∀ p ∈ categoryKeywords, ∀ word ∈ p.2, pyIn word (pyLower message) = false) := by
  have hfold := foldlAddIf
    (fun p : String × List String => p.2.any (fun word => pyIn word (pyLower message)))
    (fun p => p.1) categoryKeywords []
  have hcat : categorize_message message context =
      (if ((categoryKeywords.filter
            (fun p => p.2.any (fun word => pyIn word (pyLower message)))).map
              (fun p => p.1)).isEmpty
       then ["uncategorized"]
       else (categoryKeywords.filter
            (fun p => p.2.any (fun word => pyIn word (pyLower message)))).map
              (fun p => p.1)) := by
    simp only [categorize_message]
    rw [hfold]
    simp
  have hsent : ∀ p ∈ categoryKeywords, p.1 ≠ "uncategorized" := by decide
  by_cases hnil : (categoryKeywords.filter
      (fun p => p.2.any (fun word => pyIn word (pyLower message)))) = []
  · have hres : categorize_message message context = ["uncategorized"] := by
      rw [hcat, hnil]; simp
    rw [hres]
    refine ⟨by simp, iff_of_true rfl ?_⟩
    intro p hp word hw
    have h2 := (List.filter_eq_nil_iff.mp hnil) p hp
    simp only [List.any_eq_true, not_exists, not_and] at h2
    simpa using h2 word hw
  · have hne : ((categoryKeywords.filter
        (fun p => p.2.any (fun word => pyIn word (pyLower message)))).map
          (fun p => p.1)) ≠ [] := by
      intro hmap
      exact hnil (List.map_eq_nil_iff.mp hmap)
    obtain ⟨q, qs, hq⟩ := List.exists_cons_of_ne_nil hne
    have hres : categorize_message message context = q :: qs := by
      rw [hcat, hq]; simp
    rw [hres]
    refine ⟨by simp, ?_⟩
    constructor
    · intro h
      exfalso
      have hmem : "uncategorized" ∈ (categoryKeywords.filter
          (fun p => p.2.any (fun word => pyIn word (pyLower message)))).map
            (fun p => p.1) := by
        rw [hq, h]; simp
      rw [List.mem_map] at hmem
      obtain ⟨p, hp, hp1⟩ := hmem
      exact hsent p (List.mem_of_mem_filter hp) hp1
    · intro hall
      exfalso
      apply hnil
      rw [List.filter_eq_nil_iff]
      intro p hp
      simp only [List.any_eq_true, not_exists, not_and]
      intro word hw
      simp [hall p hp word hw]

/-- Witness for `categorize_totality`: a message matching no keyword
gets exactly the sentinel label, and the result is non-empty. -/
theorem categorize_totality_witness :
    categorize_message "zzz qqq" "" = ["uncategorized"] ∧
    categorize_message "zzz qqq" "" ≠ [] :=
  ⟨(categorize_totality "zzz qqq" "").2.mpr (by decide),
   (categorize_totality "zzz qqq" "").1⟩

/-- C5: the flow classifier returns exactly one label from a fixed
five-label set, checked in priority order: any utterance containing an
iteration keyword — in particular one also containing a
planning/roadmap keyword — is labelled `iteration`, never `planning`;
and `response` is only reachable when none of the three keyword rules
fired and the utterance index is positive. -/
theorem flow_priority :
    (∀ (content : String) (index : Nat) (msgs : List FlowMsg),
      (["instead", "changed", "modified", "updated", "fixed"].any
        (fun word => pyIn word (pyLower content))) = true →
      (["plan", "next", "future", "roadmap"].any
        (fun word => pyIn word (pyLower content))) = true →
      analyze_conversation_flow content index msgs = "iteration") ∧
    (∀ (content : String) (index : Nat) (msgs : List FlowMsg),
      analyze_conversation_flow content index msgs = "response" →
      (["instead", "changed", "modified", "updated", "fixed"].any
        (fun word => pyIn word (pyLower content))) = false ∧
      (["problem", "issue", "error", "bug"].any
        (fun word => pyIn word (pyLower content))) = false ∧
      (["plan", "next", "future", "roadmap"].any
        (fun word => pyIn word (pyLower content))) = false ∧
      0 < index) ∧
    (∀ (content : String) (index : Nat) (msgs : List FlowMsg),
      analyze_conversation_flow content index msgs ∈
        ["iteration", "problem_solving", "planning", "response", "standalone"]) := by
  refine ⟨?_, ?_, ?_⟩
  · intro content index msgs h1 _
    unfold analyze_conversation_flow
    rw [if_pos h1]
  · intro content index msgs h
    unfold analyze_conversation_flow at h
    split_ifs at h with h1 h2 h3 h4 h5
    · exact absurd h (by decide)
    · exact absurd h (by decide)
    · exact absurd h (by decide)
    · refine ⟨?_, ?_, ?_, h4.1⟩
      · simpa using h1
      · simpa using h2
      · simpa using h3
    · exact absurd h (by decide)
    · exact absurd h (by decide)
  · intro content index msgs
    unfold analyze_conversation_flow
    split_ifs <;> decide

/-- The invariant of C9 over records: the recorded pre-redaction
length (where the path records one) is at least the 50-character
floor. -/
def recordFloorOk (r : Record) : Prop := 50 ≤ r.original_length.getD 0

/-- Appending a record into its category buckets preserves any record
property shared by the buckets and the new record. -/
theorem add_to_categories_mem (b : Buckets) (cats : List String) (r0 : Record)
    (P : Record → Prop)
    (hb : ∀ p ∈ b, ∀ r ∈ p.2, P r) (hr : P r0) :
    ∀ p ∈ add_to_categories b cats r0, ∀ r ∈ p.2, P r := by
  unfold add_to_categories
  refine foldlPreserves _ (fun bb => ∀ p ∈ bb, ∀ r ∈ p.2, P r) ?_ cats b hb
  intro bb c hbb p hp r hr'
  rw [List.mem_map] at hp
  obtain ⟨q, hq, rfl⟩ := hp
  by_cases h : q.1 = c
  · simp only [if_pos h] at hr'
    rw [List.mem_append] at hr'
    rcases hr' with hr' | hr'
    · exact hbb q hq r hr'
    · rw [List.mem_singleton] at hr'
      subst hr'
      exact hr
  · simp only [if_neg h] at hr'
    exact hbb q hq r hr'

/-- Every record property holds vacuously of the fresh, all-empty
category buckets. -/
theorem initCategories_all (P : Record → Prop) :
    ∀ p ∈ initCategories, ∀ r ∈ p.2, P r := by
  intro p hp r hr
  unfold initCategories at hp
  rw [List.mem_map] at hp
  obtain ⟨q, _, rfl⟩ := hp
  simp at hr

/-- One whole-buffer step keeps the pre-redaction length floor on the
processed list and on every bucket. -/
theorem process_md_step_floor (md5hex : String → String) (messages : List String)
    (s : IngestState) (i : Nat) (message : String)
    (h1 : ∀ r ∈ s.processed, recordFloorOk r)
    (h2 : ∀ p ∈ s.categories, ∀ r ∈ p.2, recordFloorOk r) :
    (∀ r ∈ (process_md_step md5hex messages s i message).processed, recordFloorOk r) ∧
    (∀ p ∈ (process_md_step md5hex messages s i message).categories,
        ∀ r ∈ p.2, recordFloorOk r) := by
  unfold process_md_step
  by_cases hskip : (pyStrip message).length < 50
  · rw [if_pos hskip]
    exact ⟨h1, h2⟩
  · rw [if_neg hskip]
    have hlen : 50 ≤ message.length :=
      le_trans (Nat.le_of_not_lt hskip) (pyStrip_length_le message)
    constructor
    · intro r hr
      rw [List.mem_append] at hr
      rcases hr with hr | hr
      · exact h1 r hr
      · rw [List.mem_singleton] at hr
        subst hr
        exact hlen
    · exact add_to_categories_mem _ _ _ _ h2 hlen

/-- One streaming step keeps the pre-redaction length floor on every
bucket. -/
theorem process_streaming_step_floor (md5hex : String → String)
    (s : StreamState) (message : String)
    (h : ∀ p ∈ s.state.categories, ∀ r ∈ p.2, recordFloorOk r) :
    ∀ p ∈ (process_streaming_step md5hex s message).state.categories,
      ∀ r ∈ p.2, recordFloorOk r := by
  unfold process_streaming_step
  by_cases hskip : (pyStrip message).length < 50
  · rw [if_pos hskip]
    exact h
  · rw [if_neg hskip]
    have hlen : 50 ≤ message.length :=
      le_trans (Nat.le_of_not_lt hskip) (pyStrip_length_le message)
    exact add_to_categories_mem _ _ _ _ h hlen

/-- C9 counterexample: the output can contain a category-bucket record
whose redacted-content length is below 50.  For the 50-character
candidate `lengthFloorMsg` the whole-buffer path accepts the message
(pre-redaction trimmed length 50), but the persisted redacted content
is `[REDACTED_SECRET] fix` — 21 characters — placed in the
`problem_solving` bucket. -/
theorem redacted_length_floor_fails :
    ((process_md_messages md5hex_stub [lengthFloorMsg] initState).categories.filter
        (fun p => !p.2.isEmpty)).map
          (fun p => (p.1, p.2.map (fun r => (r.content, r.content.length))))
      = [("problem_solving", [("[REDACTED_SECRET] fix", 21)])] ∧
    21 < 50 ∧
    (pyStrip lengthFloorMsg).length = 50 := by
  refine ⟨by decide, by decide, by decide⟩

/-- C9 (amended): the 50-character floor is applied to the candidate
before redaction, so every record of the whole-buffer path (in the
processed list and in every bucket) and of the streaming path (in
every bucket) has a recorded pre-redaction `original_length` of at
least 50; the redacted content itself may be shorter, since redaction
can shrink the text. -/
theorem length_floor_pre_redaction (md5hex : String → String) (messages : List String) :
    (∀ r ∈ (process_md_messages md5hex messages initState).processed,
        50 ≤ r.original_length.getD 0) ∧
    (∀ p ∈ (process_md_messages md5hex messages initState).categories,
        ∀ r ∈ p.2, 50 ≤ r.original_length.getD 0) ∧
    (∀ p ∈ (process_streaming_messages md5hex messages
        ⟨initState, 0, []⟩).state.categories,
        ∀ r ∈ p.2, 50 ≤ r.original_length.getD 0) := by
  have hmd : (∀ r ∈ (process_md_messages md5hex messages initState).processed,
        recordFloorOk r) ∧
      (∀ p ∈ (process_md_messages md5hex messages initState).categories,
        ∀ r ∈ p.2, recordFloorOk r) := by
    unfold process_md_messages
    have := foldlPreserves
      (fun st p => process_md_step md5hex messages st p.1 p.2)
      (fun st => (∀ r ∈ st.processed, recordFloorOk r) ∧
        (∀ p ∈ st.categories, ∀ r ∈ p.2, recordFloorOk r))
      (fun a b ha => process_md_step_floor md5hex messages a b.1 b.2 ha.1 ha.2)
      messages.enum initState
        ⟨by simp [initState], fun p hp r hr => initCategories_all recordFloorOk p hp r hr⟩
    exact this
  have hstr : ∀ p ∈ (process_streaming_messages md5hex messages
      ⟨initState, 0, []⟩).state.categories, ∀ r ∈ p.2, recordFloorOk r := by
    unfold process_streaming_messages
    exact foldlPreserves
      (process_streaming_step md5hex)
      (fun st => ∀ p ∈ st.state.categories, ∀ r ∈ p.2, recordFloorOk r)
      (fun a b ha => process_streaming_step_floor md5hex a b ha)
      messages ⟨initState, 0, []⟩
      (fun p hp r hr => initCategories_all recordFloorOk p hp r hr)
  exact ⟨hmd.1, hmd.2, hstr⟩

/-- Witness for `length_floor_pre_redaction`: the single record the
whole-buffer path produces for `lengthFloorMsg` carries an
`original_length` of 50. -/
theorem length_floor_pre_redaction_witness :
    50 ≤ (((process_md_messages md5hex_stub [lengthFloorMsg] initState).processed.headD
      ⟨"", "", none, none, [], 0, "", 0, ""⟩).original_length.getD 0) :=
  (length_floor_pre_redaction md5hex_stub [lengthFloorMsg]).1 _ (by decide)

/-- Witness for `flow_priority`: an utterance with both `updated` and
`plan` is labelled `iteration`; a keyword-free utterance following a
question is labelled `response`, which forces its index positive. -/
theorem flow_priority_witness :
    analyze_conversation_flow "we updated the plan" 0 [] = "iteration" ∧
    (0 : Nat) < 1 ∧
    analyze_conversation_flow "ok then" 1 [FlowMsg.ofStr "how do I do this"]
      ∈ ["iteration", "problem_solving", "planning", "response", "standalone"] :=
  ⟨flow_priority.1 "we updated the plan" 0 [] (by decide) (by decide),
   (flow_priority.2.1 "ok then" 1 [FlowMsg.ofStr "how do I do this"] (by decide)).2.2.2,
   flow_priority.2.2 "ok then" 1 [FlowMsg.ofStr "how do I do this"]⟩

/-- The run-statistics invariant of C10: the total equals the sum of
the categorized and uncategorized counters. -/
def statsOk (st : Stats) : Prop :=
  st.total_messages = st.categorized_messages + st.uncategorized_messages

/-- Componentwise order on the three message counters. -/
def statsLe (a b : Stats) : Prop :=
  a.total_messages ≤ b.total_messages ∧
  a.categorized_messages ≤ b.categorized_messages ∧
  a.uncategorized_messages ≤ b.uncategorized_messages

/-- Reflexivity of `statsLe`. -/
theorem statsLe_refl (a : Stats) : statsLe a a :=
  ⟨le_refl _, le_refl _, le_refl _⟩

/-- Transitivity of `statsLe`. -/
theorem statsLe_trans {a b c : Stats} (h1 : statsLe a b) (h2 : statsLe b c) :
    statsLe a c :=
  ⟨le_trans h1.1 h2.1, le_trans h1.2.1 h2.2.1, le_trans h1.2.2 h2.2.2⟩

/-- `filter_secrets` touches only `secrets_filtered`: the three message
counters of its output statistics equal those of its input. -/
theorem fs_counters (c : String) (st : Stats) :
    (filter_secrets c st).2.2.total_messages = st.total_messages ∧
    (filter_secrets c st).2.2.categorized_messages = st.categorized_messages ∧
    (filter_secrets c st).2.2.uncategorized_messages = st.uncategorized_messages := by
  unfold filter_secrets
  refine foldlPreserves (fsApplyPattern c)
    (fun acc : String × List SecretAudit × Stats =>
      acc.2.2.total_messages = st.total_messages ∧
      acc.2.2.categorized_messages = st.categorized_messages ∧
      acc.2.2.uncategorized_messages = st.uncategorized_messages)
    ?_ secret_patterns (c, [], st) ⟨rfl, rfl, rfl⟩
  intro acc pat hacc
  unfold fsApplyPattern
  refine foldlPreserves (fsApplyMatch pat)
    (fun acc : String × List SecretAudit × Stats =>
      acc.2.2.total_messages = st.total_messages ∧
      acc.2.2.categorized_messages = st.categorized_messages ∧
      acc.2.2.uncategorized_messages = st.uncategorized_messages)
    ?_ (findallPat pat c) acc hacc
  intro a m ha
  unfold fsApplyMatch
  by_cases hshort : (pyStrip (collapseMatch m)).length < 8
  · rw [if_pos hshort]
    exact ha
  · rw [if_neg hshort]
    exact ha

/-- Counter arithmetic of `bumpCategorized`: the total is untouched,
the categorized/uncategorized sum grows by exactly one, and each of
the two counters is nondecreasing. -/
theorem bump_counters (st : Stats) (cats : List String) :
    (bumpCategorized st cats).total_messages = st.total_messages ∧
    (bumpCategorized st cats).categorized_messages +
        (bumpCategorized st cats).uncategorized_messages
      = st.categorized_messages + st.uncategorized_messages + 1 ∧
    st.categorized_messages ≤ (bumpCategorized st cats).categorized_messages ∧
    st.uncategorized_messages ≤ (bumpCategorized st cats).uncategorized_messages := by
  unfold bumpCategorized
  by_cases h : cats ≠ ["uncategorized"]
  · rw [if_pos h]
    refine ⟨rfl, ?_, ?_, ?_⟩ <;> dsimp only <;> omega
  · rw [if_neg h]
    refine ⟨rfl, ?_, ?_, ?_⟩ <;> dsimp only <;> omega

/-- The statistics update shared by all four per-utterance loop bodies:
an intermediate statistics value with unchanged message counters gets
its total incremented and is then passed through `bumpCategorized`.
This preserves `statsOk` and only increases the three counters. -/
theorem stats_update_ok (pre mid : Stats) (cats : List String)
    (htot : mid.total_messages = pre.total_messages)
    (hcat : mid.categorized_messages = pre.categorized_messages)
    (hunc : mid.uncategorized_messages = pre.uncategorized_messages) :
    (statsOk pre →
      statsOk (bumpCategorized { mid with total_messages := mid.total_messages + 1 } cats)) ∧
    statsLe pre (bumpCategorized { mid with total_messages := mid.total_messages + 1 } cats) := by
  have hb := bump_counters { mid with total_messages := mid.total_messages + 1 } cats
  dsimp only at hb
  unfold statsOk statsLe
  constructor
  · intro hpre
    omega
  · omega

/-- One whole-buffer step preserves `statsOk` and never decreases the
three counters. -/
theorem process_md_step_stats (md5hex : String → String) (messages : List String)
    (s : IngestState) (i : Nat) (message : String) :
    (statsOk s.stats → statsOk (process_md_step md5hex messages s i message).stats) ∧
    statsLe s.stats (process_md_step md5hex messages s i message).stats := by
  unfold process_md_step
  by_cases hskip : (pyStrip message).length < 50
  · rw [if_pos hskip]
    exact ⟨fun h => h, statsLe_refl _⟩
  · rw [if_neg hskip]
    have hfs := fs_counters message s.stats
    exact stats_update_ok s.stats _ _ hfs.1 hfs.2.1 hfs.2.2

/-- One chunked step preserves `statsOk` and never decreases the three
counters. -/
theorem process_chunk_step_stats (md5hex : String → String) (chunk_messages : List String)
    (s : IngestState) (j : Nat) (message : String) :
    (statsOk s.stats → statsOk (process_chunk_step md5hex chunk_messages s j message).stats) ∧
    statsLe s.stats (process_chunk_step md5hex chunk_messages s j message).stats := by
  unfold process_chunk_step
  by_cases hskip : (pyStrip message).length < 50
  · rw [if_pos hskip]
    exact ⟨fun h => h, statsLe_refl _⟩
  · rw [if_neg hskip]
    have hfs := fs_counters message s.stats
    exact stats_update_ok s.stats _ _ hfs.1 hfs.2.1 hfs.2.2

/-- One streaming step preserves `statsOk` and never decreases the
three counters. -/
theorem process_streaming_step_stats (md5hex : String → String)
    (s : StreamState) (message : String) :
    (statsOk s.state.stats →
      statsOk (process_streaming_step md5hex s message).state.stats) ∧
    statsLe s.state.stats (process_streaming_step md5hex s message).state.stats := by
  unfold process_streaming_step
  by_cases hskip : (pyStrip message).length < 50
  · rw [if_pos hskip]
    exact ⟨fun h => h, statsLe_refl _⟩
  · rw [if_neg hskip]
    have hfs := fs_counters message s.state.stats
    exact stats_update_ok s.state.stats _ _ hfs.1 hfs.2.1 hfs.2.2

/-- One JSON step preserves `statsOk` and never decreases the three
counters. -/
theorem process_json_step_stats (md5hex : String → String) (messages : List JsonItem)
    (s : IngestState) (i : Nat) (message_data : JsonItem) :
    (statsOk s.stats → statsOk (process_json_step md5hex messages s i message_data).stats) ∧
    statsLe s.stats (process_json_step md5hex messages s i message_data).stats := by
  unfold process_json_step
  by_cases hskip : (pyStrip (json_content message_data)).length < 50
  · rw [if_pos hskip]
    exact ⟨fun h => h, statsLe_refl _⟩
  · rw [if_neg hskip]
    exact stats_update_ok s.stats s.stats _ rfl rfl rfl

/-- C10: on every processing path (JSON, whole-buffer, chunked,
streaming), the run statistics keep `total_messages =
categorized_messages + uncategorized_messages` across the per-message
loops, and the three counters only ever increase. -/
theorem stats_invariant (md5hex : String → String) :
    (∀ (messages : List JsonItem) (s : IngestState), statsOk s.stats →
      statsOk (process_json_messages md5hex messages s).stats ∧
      statsLe s.stats (process_json_messages md5hex messages s).stats) ∧
    (∀ (messages : List String) (s : IngestState), statsOk s.stats →
      statsOk (process_md_messages md5hex messages s).stats ∧
      statsLe s.stats (process_md_messages md5hex messages s).stats) ∧
    (∀ (chunk_messages : List String) (s : IngestState), statsOk s.stats →
      statsOk (process_chunk_messages md5hex chunk_messages s).stats ∧
      statsLe s.stats (process_chunk_messages md5hex chunk_messages s).stats) ∧
    (∀ (messages : List String) (s : StreamState), statsOk s.state.stats →
      statsOk (process_streaming_messages md5hex messages s).state.stats ∧
      statsLe s.state.stats (process_streaming_messages md5hex messages s).state.stats) := by
  refine ⟨?_, ?_, ?_, ?_⟩
  · intro messages s hs
    unfold process_json_messages
    exact foldlPreserves _
      (fun st => statsOk st.stats ∧ statsLe s.stats st.stats)
      (fun a b ha =>
        have hstep := process_json_step_stats md5hex messages a b.1 b.2
        ⟨hstep.1 ha.1, statsLe_trans ha.2 hstep.2⟩)
      messages.enum s ⟨hs, statsLe_refl _⟩
  · intro messages s hs
    unfold process_md_messages
    exact foldlPreserves _
      (fun st => statsOk st.stats ∧ statsLe s.stats st.stats)
      (fun a b ha =>
        have hstep := process_md_step_stats md5hex messages a b.1 b.2
        ⟨hstep.1 ha.1, statsLe_trans ha.2 hstep.2⟩)
      messages.enum s ⟨hs, statsLe_refl _⟩
  · intro chunk_messages s hs
    unfold process_chunk_messages
    exact foldlPreserves _
      (fun st => statsOk st.stats ∧ statsLe s.stats st.stats)
      (fun a b ha =>
        have hstep := process_chunk_step_stats md5hex chunk_messages a b.1 b.2
        ⟨hstep.1 ha.1, statsLe_trans ha.2 hstep.2⟩)
      chunk_messages.enum s ⟨hs, statsLe_refl _⟩
  · intro messages s hs
    unfold process_streaming_messages
    exact foldlPreserves _
      (fun st => statsOk st.state.stats ∧ statsLe s.state.stats st.state.stats)
      (fun a b ha =>
        have hstep := process_streaming_step_stats md5hex a b
        ⟨hstep.1 ha.1, statsLe_trans ha.2 hstep.2⟩)
      messages s ⟨hs, statsLe_refl _⟩

/-- Witness for `stats_invariant`: concrete runs of the JSON and
whole-buffer paths from a fresh pipeline state keep the invariant. -/
theorem stats_invariant_witness :
    statsOk (process_json_messages md5hex_stub [JsonItem.str chunkSecretMsg] initState).stats ∧
    statsOk (process_md_messages md5hex_stub [lengthFloorMsg] initState).stats :=
  ⟨((stats_invariant md5hex_stub).1 [JsonItem.str chunkSecretMsg] initState (by rfl)).1,
   ((stats_invariant md5hex_stub).2.1 [lengthFloorMsg] initState (by rfl)).1⟩
